import Mathlib

/-!
# Pulsar input (`lib/input/pulsar.go`)

A shallow embedding of the Pulsar input reader: configuration checking in
`newPulsar`, the connection life cycle (`ConnectWithContext`, `disconnect`,
`CloseAsync`, `WaitForClose`), the read path `ReadWithContext` with its error
classification and metadata extraction, and the acknowledgement closure that
`ReadWithContext` returns.

The broker client (`github.com/apache/pulsar-client-go`) is an external
collaborator. Every call made on it is recorded as an `Event` in a trace, and
what the call answers (a handle, a message or an error) is an argument of the
embedded function. Methods run one at a time: the read-write lock of the
reader is not modelled.
-/

namespace PulsarInput

/-! ## Go values used by the reader -/

/-- Go `error` values that the reader can see: the two context sentinels, the two
sentinels of `lib/types`, an error made by `errors.New`, and an error that wraps
another one (as `fmt.Errorf` with `%w` builds). A nil error is `none` of
`Option GoError`. -/
inductive GoError where
  | Canceled
  | DeadlineExceeded
  | ErrTimeout
  | ErrNotConnected
  | new (msg : String)
  | wrap (msg : String) (inner : GoError)
  deriving DecidableEq, Repr

/-- Go `errors.New`. -/
def errors.New (msg : String) : GoError := GoError.new msg

/-- Go `errors.Is`: the error or any error on its unwrap chain equals the target. -/
def errors.Is : GoError → GoError → Bool
  | GoError.wrap msg inner, target =>
      decide (GoError.wrap msg inner = target) || errors.Is inner target
  | err, target => decide (err = target)

/-- Go `len` of a string: its number of bytes. -/
def len (s : String) : Nat := s.utf8ByteSize

/-- A run-time panic of the Go program. -/
inductive Panic where
  | nilDereference
  deriving DecidableEq, Repr

/-- A non-nil `pulsar.Client`, identified by a handle number. -/
structure Client where
  id : Nat
  deriving DecidableEq, Repr

/-- A non-nil `pulsar.Consumer`, identified by a handle number. -/
structure Consumer where
  id : Nat
  deriving DecidableEq, Repr

/-- The subscription types of the client library; the reader only uses `Shared`. -/
inductive SubscriptionType where
  | Exclusive
  | Shared
  | Failover
  | KeyShared
  deriving DecidableEq, Repr

/-- A `pulsar.Message` as the reader observes it: `Payload()`, `Key()`, `Topic()` and
`Properties()`. The properties of the Go map are listed in the order in which
`range` happens to visit them; the names of a Go map are pairwise distinct. -/
structure PulsarMessage where
  Payload : List UInt8
  Key : String
  Topic : String
  Properties : List (String × String)
  deriving DecidableEq, Repr

/-- A `types.Response`: only `Error()` is used by the reader. -/
structure Response where
  Error : Option GoError
  deriving DecidableEq, Repr

/-! ## Messages of the pipeline (`lib/message`) -/

/-- Modelled from the spec: the metadata of a message part (`lib/message`, not part of
the sources at hand) is an ordered mapping of metadata keys to string values. -/
structure Metadata where
  entries : List (String × String)
  deriving DecidableEq, Repr

/-- Modelled from the spec: writing a name of an entry list, last write wins on a
key collision; a new name is added at the end. -/
def setEntry : List (String × String) → String → String → List (String × String)
  | [], k, v => [(k, v)]
  | (k0, v0) :: rest, k, v =>
      if k0 = k then (k, v) :: rest else (k0, v0) :: setEntry rest k v

/-- Modelled from the spec: looking a name up in an entry list. -/
def getEntry : List (String × String) → String → Option String
  | [], _ => none
  | (k0, v0) :: rest, k => if k0 = k then some v0 else getEntry rest k

/-- Modelled from the spec: `Metadata().Set(k, v)` of `lib/message`, last write
wins on a key collision. -/
def Metadata.Set (m : Metadata) (k v : String) : Metadata := ⟨setEntry m.entries k v⟩

/-- Modelled from the spec: `Metadata().Get(k)` of `lib/message`; `none` when the
metadata has no entry under `k`. -/
def Metadata.Get (m : Metadata) (k : String) : Option String := getEntry m.entries k

/-- Modelled from the spec: one part of a message (`lib/message`), payload bytes
plus metadata. -/
structure Part where
  data : List UInt8
  metadata : Metadata
  deriving DecidableEq, Repr

/-- Modelled from the spec: `message.NewPart(data)` of `lib/message`, a part with
the given payload and no metadata. -/
def message.NewPart (data : List UInt8) : Part := ⟨data, ⟨[]⟩⟩

/-- Modelled from the spec: a `types.Message` (`lib/message`), the list of its
parts. -/
structure Message where
  parts : List Part
  deriving DecidableEq, Repr

/-- Modelled from the spec: `message.New(nil)` of `lib/message`, a message
without parts. -/
def message.New : Message := ⟨[]⟩

/-- Modelled from the spec: `Append(part)` of `lib/message` adds a part at the
end. -/
def Message.Append (m : Message) (part : Part) : Message := ⟨m.parts ++ [part]⟩

/-! ## The reader and its environment -/

/-- The type `PulsarConfig`. -/
structure PulsarConfig where
  URL : String
  Topic : String
  SubscriptionName : String
  deriving DecidableEq, Repr

/-- The function `NewPulsarConfig`: all three fields empty. -/
def NewPulsarConfig : PulsarConfig := ⟨"", "", ""⟩

/-- The struct `pulsarReader`; a nil interface value in `client` or `consumer` is
`none`. The logger and the metrics are not stored: log calls appear in the trace. -/
structure pulsarReader where
  client : Option Client
  consumer : Option Consumer
  conf : PulsarConfig
  deriving DecidableEq, Repr

/-- The calls the reader makes on its collaborators, in the order it makes them. -/
inductive Event where
  | NewClient (url : String)
  | Subscribe (client : Client) (topic subscriptionName : String) (type : SubscriptionType)
  | ClientClose (client : Client)
  | ConsumerClose (consumer : Consumer)
  | Receive (consumer : Consumer)
  | Ack (consumer : Consumer) (msg : PulsarMessage)
  | Nack (consumer : Consumer) (msg : PulsarMessage)
  | Infof (format : String) (arg : String)
  | Errorf (format : String) (arg : GoError)
  deriving DecidableEq, Repr

/-- The reader together with the trace of calls made so far. -/
structure World where
  p : pulsarReader
  trace : List Event
  deriving DecidableEq, Repr

/-- Record one more call. -/
def World.emit (w : World) (e : Event) : World := { w with trace := w.trace ++ [e] }

/-- The function `newPulsar`. -/
def newPulsar (conf : PulsarConfig) : Except GoError pulsarReader :=
  if len conf.URL == 0 then
    Except.error (errors.New "field url must not be empty")
  else if len conf.Topic == 0 then
    Except.error (errors.New "field topic must not be empty")
  else if len conf.SubscriptionName == 0 then
    Except.error (errors.New "field subscription_name must not be empty")
  else
    Except.ok { client := none, consumer := none, conf := conf }

/-- The method `ConnectWithContext`. `newClient` is what `pulsar.NewClient` answers
and `subscribe` what `client.Subscribe` answers, should the method call them. -/
def ConnectWithContext (newClient : Except GoError Client)
    (subscribe : Except GoError Consumer) (w : World) : Option GoError × World :=
  match w.p.client with
  | some _ => (none, w)
  | none =>
    let w1 := w.emit (Event.NewClient w.p.conf.URL)
    match newClient with
    | Except.error err => (some err, w1)
    | Except.ok client =>
      let w2 := w1.emit
        (Event.Subscribe client w.p.conf.Topic w.p.conf.SubscriptionName SubscriptionType.Shared)
      match subscribe with
      | Except.error err => (some err, w2.emit (Event.ClientClose client))
      | Except.ok consumer =>
        let w3 : World :=
          { w2 with p := { w2.p with client := some client, consumer := some consumer } }
        (none, w3.emit (Event.Infof "Receiving Pulsar messages to URL: %v\n" w.p.conf.URL))

/-- The method `disconnect`. Calling `Close` on a nil consumer panics. -/
def disconnect (w : World) : Except Panic (Option GoError × World) :=
  match w.p.client with
  | none => Except.ok (none, w)
  | some client =>
    match w.p.consumer with
    | none => Except.error Panic.nilDereference
    | some consumer =>
      let w1 := (w.emit (Event.ConsumerClose consumer)).emit (Event.ClientClose client)
      Except.ok (none, { w1 with p := { w1.p with consumer := none, client := none } })

/-- The closure returned by `ReadWithContext`: it captures the reader (by pointer, so
it sees the reader as it is when called) and the broker message `pulMsg`. -/
structure AsyncAckFn where
  pulMsg : PulsarMessage
  deriving DecidableEq, Repr

/-- Calling the closure returned by `ReadWithContext` with a response. -/
def AsyncAckFn.call (f : AsyncAckFn) (res : Response) (w : World) : Option GoError × World :=
  match w.p.consumer with
  | some r =>
    if res.Error ≠ none then (none, w.emit (Event.Nack r f.pulMsg))
    else (none, w.emit (Event.Ack r f.pulMsg))
  | none => (none, w)

/-- The metadata part of `ReadWithContext`: the key when it is not empty, the topic,
then every property in the order of `range`. -/
def buildPart (pulMsg : PulsarMessage) : Part :=
  let part := message.NewPart pulMsg.Payload
  let part : Part :=
    if len pulMsg.Key > 0 then { part with metadata := part.metadata.Set "pulsar_key" pulMsg.Key }
    else part
  let part : Part := { part with metadata := part.metadata.Set "pulsar_topic" pulMsg.Topic }
  pulMsg.Properties.foldl
    (fun (q : Part) (kv : String × String) => { q with metadata := q.metadata.Set kv.1 kv.2 })
    part

/-- What `ReadWithContext` returns: message, acknowledgement closure, error. -/
abbrev ReadResult := Option Message × Option AsyncAckFn × Option GoError

/-- The method `ReadWithContext`. `recv` is what `r.Receive(ctx)` answers, should the
method call it. -/
def ReadWithContext (recv : Except GoError PulsarMessage) (w : World) :
    Except Panic (ReadResult × World) :=
  match w.p.consumer with
  | none => Except.ok ((none, none, some GoError.ErrNotConnected), w)
  | some r =>
    let w1 := w.emit (Event.Receive r)
    match recv with
    | Except.error err =>
      if errors.Is err GoError.Canceled || errors.Is err GoError.DeadlineExceeded then
        Except.ok ((none, none, some GoError.ErrTimeout), w1)
      else
        match disconnect (w1.emit (Event.Errorf "Lost connection due to: %v\n" err)) with
        | Except.error pn => Except.error pn
        | Except.ok (_, w2) => Except.ok ((none, none, some GoError.ErrNotConnected), w2)
    | Except.ok pulMsg =>
      let msg := message.New.Append (buildPart pulMsg)
      Except.ok ((some msg, some ⟨pulMsg⟩, none), w1)

/-- The method `CloseAsync`. -/
def CloseAsync (w : World) : Except Panic World :=
  match disconnect w with
  | Except.error pn => Except.error pn
  | Except.ok (_, w1) => Except.ok w1

/-- The method `WaitForClose`. -/
def WaitForClose (_timeout : Nat) (w : World) : Option GoError × World := (none, w)

/-! ## Sequences of calls -/

/-- One call on the reader, with what the broker client answers during the call. -/
inductive Action where
  | connect (newClient : Except GoError Client) (subscribe : Except GoError Consumer)
  | disconnect
  | read (recv : Except GoError PulsarMessage)
  | ack (f : AsyncAckFn) (res : Response)
  | closeAsync
  | waitForClose (timeout : Nat)

/-- Run one call: the error it returns (for a read, the error component) and the
world after it. -/
def step : Action → World → Except Panic (Option GoError × World)
  | Action.connect newClient subscribe, w => Except.ok (ConnectWithContext newClient subscribe w)
  | Action.disconnect, w => disconnect w
  | Action.read recv, w =>
    match ReadWithContext recv w with
    | Except.error pn => Except.error pn
    | Except.ok (res, w1) => Except.ok (res.2.2, w1)
  | Action.ack f res, w => Except.ok (f.call res w)
  | Action.closeAsync, w =>
    match CloseAsync w with
    | Except.error pn => Except.error pn
    | Except.ok w1 => Except.ok (none, w1)
  | Action.waitForClose timeout, w => Except.ok (WaitForClose timeout w)

/-- Run a sequence of calls, one after the other. -/
def run : List Action → World → Except Panic World
  | [], w => Except.ok w
  | a :: rest, w =>
    match step a w with
    | Except.error pn => Except.error pn
    | Except.ok (_, w1) => run rest w1

/-- Is the call a `ConnectWithContext`? -/
def Action.isConnect : Action → Bool
  | Action.connect _ _ => true
  | _ => false

/-- Run a sequence of calls in which no `ConnectWithContext` call returns success:
`none` as soon as one does (or a call panics). -/
def runWithoutConnect : List Action → World → Option World
  | [], w => some w
  | a :: rest, w =>
    match step a w with
    | Except.error _ => none
    | Except.ok (r, w1) =>
      if a.isConnect && decide (r = none) then none else runWithoutConnect rest w1

/-- A `ConnectWithContext` call in which both the session and the subscription are
granted. -/
def Action.canConnect : Action → Bool
  | Action.connect (Except.ok _) (Except.ok _) => true
  | _ => false

/-- The calls that never reach `disconnect`: everything but `disconnect`, `CloseAsync`
and a read whose receive fails with an error other than cancellation or deadline. -/
def Action.keepsConnection : Action → Bool
  | Action.disconnect => false
  | Action.closeAsync => false
  | Action.read (Except.error err) =>
      errors.Is err GoError.Canceled || errors.Is err GoError.DeadlineExceeded
  | _ => true

/-- Both handles absent. -/
def Disconnected (p : pulsarReader) : Prop := p.client = none ∧ p.consumer = none

/-- Both handles present. -/
def Connected (p : pulsarReader) : Prop := p.client.isSome = true ∧ p.consumer.isSome = true

/-- The session handle and the consumer handle are both absent or both present. -/
def Paired (p : pulsarReader) : Prop := Disconnected p ∨ Connected p

/-- A world is reachable when a sequence of calls leads to it from a freshly
constructed reader. -/
def Reachable (w : World) : Prop :=
  ∃ (conf : PulsarConfig) (p : pulsarReader) (acts : List Action),
    newPulsar conf = Except.ok p ∧ run acts ⟨p, []⟩ = Except.ok w

instance (p : pulsarReader) : Decidable (Disconnected p) := by
  unfold Disconnected; infer_instance

instance (p : pulsarReader) : Decidable (Connected p) := by
  unfold Connected; infer_instance

instance (p : pulsarReader) : Decidable (Paired p) := by
  unfold Paired; infer_instance

/-- The loop over the properties in `ReadWithContext`, as a function of the part it
starts from. -/
def setAll (props : List (String × String)) (q : Part) : Part :=
  props.foldl
    (fun (q : Part) (kv : String × String) => { q with metadata := q.metadata.Set kv.1 kv.2 }) q

/-! ## Sample values -/

/-- A complete configuration. -/
def sampleConf : PulsarConfig := ⟨"pulsar://localhost:6650", "t1", "s1"⟩

/-- The reader that `newPulsar` builds from `sampleConf`, before any call. -/
def freshWorld : World := ⟨⟨none, none, sampleConf⟩, []⟩

/-- A reader holding session 1 and consumer 1. -/
def connectedWorld : World := ⟨⟨some ⟨1⟩, some ⟨1⟩, sampleConf⟩, []⟩

/-- A broker message with key `k1`, topic `t1` and the one property `a = 1`. -/
def sampleMsg : PulsarMessage := ⟨[104, 105], "k1", "t1", [("a", "1")]⟩

/-- A broker message that carries a property named `pulsar_topic`. -/
def topicPropertyMsg : PulsarMessage := ⟨[104, 105], "k1", "t1", [("pulsar_topic", "other")]⟩

/-- A broker message without key that carries properties named `pulsar_key` and `key`. -/
def keyPropertyMsg : PulsarMessage := ⟨[104, 105], "", "t1", [("pulsar_key", "x"), ("key", "y")]⟩

/-- A broker message without key and without properties. -/
def noKeyMsg : PulsarMessage := ⟨[104, 105], "", "t1", []⟩

/-- A transport failure reported by the broker client. -/
def brokenPipe : GoError := GoError.new "broken pipe"

/-! ## Basic facts -/

theorem utf8ByteSize_go_eq_zero (cs : List Char) :
    String.utf8ByteSize.go cs = 0 ↔ cs = [] := by
  cases cs with
  | nil => simp [String.utf8ByteSize.go]
  | cons c cs =>
    have hc := Char.utf8Size_pos c
    simp [String.utf8ByteSize.go]
    omega

theorem len_eq_zero (s : String) : len s = 0 ↔ s = "" := by
  cases s with
  | mk cs =>
    show String.utf8ByteSize.go cs = 0 ↔ _
    rw [utf8ByteSize_go_eq_zero]
    constructor
    · intro h; subst h; rfl
    · intro h; exact congrArg String.data h

theorem newPulsar_eq (conf : PulsarConfig) :
    newPulsar conf =
      if conf.URL = "" then Except.error (errors.New "field url must not be empty")
      else if conf.Topic = "" then Except.error (errors.New "field topic must not be empty")
      else if conf.SubscriptionName = "" then
        Except.error (errors.New "field subscription_name must not be empty")
      else Except.ok { client := none, consumer := none, conf := conf } := by
  unfold newPulsar
  simp only [beq_iff_eq, len_eq_zero]

theorem newPulsar_disconnected (conf : PulsarConfig) (p : pulsarReader)
    (h : newPulsar conf = Except.ok p) : Disconnected p := by
  rw [newPulsar_eq] at h
  split_ifs at h
  cases h
  exact ⟨rfl, rfl⟩

theorem disconnect_of_absent (w : World) (hc : w.p.client = none) :
    disconnect w = Except.ok (none, w) := by
  unfold disconnect
  rw [hc]

theorem disconnect_of_present (w : World) (cl : Client) (co : Consumer)
    (hc : w.p.client = some cl) (hco : w.p.consumer = some co) :
    disconnect w = Except.ok (none,
      { p := { client := none, consumer := none, conf := w.p.conf },
        trace := w.trace ++ [Event.ConsumerClose co, Event.ClientClose cl] }) := by
  unfold disconnect
  rw [hc, hco]
  simp [World.emit]

theorem read_of_absent (recv : Except GoError PulsarMessage) (w : World)
    (hco : w.p.consumer = none) :
    ReadWithContext recv w = Except.ok ((none, none, some GoError.ErrNotConnected), w) := by
  unfold ReadWithContext
  rw [hco]

theorem call_of_absent (f : AsyncAckFn) (res : Response) (w : World)
    (hco : w.p.consumer = none) : f.call res w = (none, w) := by
  unfold AsyncAckFn.call
  rw [hco]

/-! ## One call at a time -/

theorem connect_of_present (newClient : Except GoError Client)
    (subscribe : Except GoError Consumer) (w : World) (cl : Client)
    (hc : w.p.client = some cl) : ConnectWithContext newClient subscribe w = (none, w) := by
  unfold ConnectWithContext
  rw [hc]

theorem connect_paired (newClient : Except GoError Client)
    (subscribe : Except GoError Consumer) (w : World) (h : Paired w.p) :
    Paired (ConnectWithContext newClient subscribe w).2.p := by
  unfold ConnectWithContext
  cases hc : w.p.client with
  | some cl => simpa using h
  | none =>
    have hd : Disconnected w.p := by
      rcases h with h | h
      · exact h
      · rw [Connected, hc] at h; simp at h
    cases newClient with
    | error err => exact Or.inl hd
    | ok client =>
      cases subscribe with
      | error err => exact Or.inl hd
      | ok consumer => exact Or.inr ⟨rfl, rfl⟩

theorem disconnect_paired (w : World) (h : Paired w.p) :
    ∃ w1, disconnect w = Except.ok (none, w1) ∧ Disconnected w1.p := by
  rcases h with h | h
  · exact ⟨w, disconnect_of_absent w h.1, h⟩
  · obtain ⟨h1, h2⟩ := h
    obtain ⟨cl, hcl⟩ := Option.isSome_iff_exists.mp h1
    obtain ⟨co, hco⟩ := Option.isSome_iff_exists.mp h2
    exact ⟨_, disconnect_of_present w cl co hcl hco, rfl, rfl⟩

theorem read_paired (recv : Except GoError PulsarMessage) (w : World) (h : Paired w.p) :
    ∃ res w1, ReadWithContext recv w = Except.ok (res, w1) ∧ Paired w1.p := by
  cases hco : w.p.consumer with
  | none => exact ⟨_, w, read_of_absent recv w hco, h⟩
  | some r =>
    unfold ReadWithContext
    rw [hco]
    cases recv with
    | ok pulMsg => exact ⟨_, _, rfl, h⟩
    | error err =>
      by_cases ht : (errors.Is err GoError.Canceled || errors.Is err GoError.DeadlineExceeded) = true
      · simp only [ht, if_true]
        exact ⟨_, _, rfl, h⟩
      · simp only [ht]
        obtain ⟨w1, hw1, hd⟩ := disconnect_paired
          ((w.emit (Event.Receive r)).emit (Event.Errorf "Lost connection due to: %v\n" err)) h
        rw [hw1]
        exact ⟨_, _, rfl, Or.inl hd⟩

theorem call_p (f : AsyncAckFn) (res : Response) (w : World) :
    (f.call res w).1 = none ∧ (f.call res w).2.p = w.p := by
  unfold AsyncAckFn.call
  cases w.p.consumer with
  | none => exact ⟨rfl, rfl⟩
  | some r => by_cases hr : res.Error = none <;> simp [hr, World.emit]

theorem step_paired (a : Action) (w : World) (h : Paired w.p) :
    ∃ r w1, step a w = Except.ok (r, w1) ∧ Paired w1.p := by
  cases a with
  | connect newClient subscribe =>
    exact ⟨_, _, rfl, connect_paired newClient subscribe w h⟩
  | disconnect =>
    obtain ⟨w1, hw1, hd⟩ := disconnect_paired w h
    exact ⟨none, w1, hw1, Or.inl hd⟩
  | read recv =>
    obtain ⟨res, w1, hw1, hp⟩ := read_paired recv w h
    refine ⟨res.2.2, w1, ?_, hp⟩
    simp only [step, hw1]
  | ack f res =>
    refine ⟨(f.call res w).1, (f.call res w).2, rfl, ?_⟩
    rw [(call_p f res w).2]
    exact h
  | closeAsync =>
    obtain ⟨w1, hw1, hd⟩ := disconnect_paired w h
    refine ⟨none, w1, ?_, Or.inl hd⟩
    simp only [step, CloseAsync, hw1]
  | waitForClose timeout => exact ⟨_, _, rfl, h⟩

theorem run_paired (acts : List Action) (w : World) (h : Paired w.p) :
    ∃ w1, run acts w = Except.ok w1 ∧ Paired w1.p := by
  induction acts generalizing w with
  | nil => exact ⟨w, rfl, h⟩
  | cons a rest ih =>
    obtain ⟨r, w1, hs, hp⟩ := step_paired a w h
    obtain ⟨w2, hr, hp2⟩ := ih w1 hp
    refine ⟨w2, ?_, hp2⟩
    simp only [run, hs, hr]

theorem step_disconnected (a : Action) (w : World) (h : Disconnected w.p) :
    ∃ r w1, step a w = Except.ok (r, w1) ∧
      (((a.isConnect && decide (r = none)) = true ∧ a.canConnect = true) ∨
        ((a.isConnect && decide (r = none)) = false ∧ Disconnected w1.p)) := by
  obtain ⟨hc, hco⟩ := h
  cases a with
  | connect newClient subscribe =>
    refine ⟨(ConnectWithContext newClient subscribe w).1,
      (ConnectWithContext newClient subscribe w).2, rfl, ?_⟩
    unfold ConnectWithContext
    rw [hc]
    cases newClient with
    | error err => exact Or.inr ⟨by simp [Action.isConnect], hc, hco⟩
    | ok client =>
      cases subscribe with
      | error err => exact Or.inr ⟨by simp [Action.isConnect], hc, hco⟩
      | ok consumer => exact Or.inl ⟨by simp [Action.isConnect], rfl⟩
  | disconnect =>
    exact ⟨none, w, disconnect_of_absent w hc, Or.inr ⟨rfl, hc, hco⟩⟩
  | read recv =>
    refine ⟨some GoError.ErrNotConnected, w, ?_, Or.inr ⟨rfl, hc, hco⟩⟩
    simp only [step, read_of_absent recv w hco]
  | ack f res =>
    refine ⟨none, w, ?_, Or.inr ⟨rfl, hc, hco⟩⟩
    simp only [step, call_of_absent f res w hco]
  | closeAsync =>
    refine ⟨none, w, ?_, Or.inr ⟨rfl, hc, hco⟩⟩
    simp only [step, CloseAsync, disconnect_of_absent w hc]
  | waitForClose timeout => exact ⟨none, w, rfl, Or.inr ⟨rfl, hc, hco⟩⟩

theorem runWithoutConnect_disconnected (acts : List Action) (w w2 : World)
    (h : Disconnected w.p) (hr : runWithoutConnect acts w = some w2) : Disconnected w2.p := by
  induction acts generalizing w with
  | nil =>
    simp only [runWithoutConnect, Option.some.injEq] at hr
    rw [← hr]; exact h
  | cons a rest ih =>
    obtain ⟨r, w1, hs, hcase⟩ := step_disconnected a w h
    simp only [runWithoutConnect, hs] at hr
    rcases hcase with ⟨hb, _⟩ | ⟨hb, hd⟩
    · rw [if_pos hb] at hr; cases hr
    · rw [hb] at hr
      exact ih w1 hd (by simpa using hr)

theorem runWithoutConnect_total (acts : List Action) (w : World)
    (h : Disconnected w.p) (hacts : ∀ a ∈ acts, a.canConnect = false) :
    ∃ w2, runWithoutConnect acts w = some w2 := by
  induction acts generalizing w with
  | nil => exact ⟨w, rfl⟩
  | cons a rest ih =>
    obtain ⟨r, w1, hs, hcase⟩ := step_disconnected a w h
    rcases hcase with ⟨_, hcan⟩ | ⟨hb, hd⟩
    · rw [hacts a (List.mem_cons_self a rest)] at hcan; cases hcan
    · obtain ⟨w2, hw2⟩ := ih w1 hd (fun b hb2 => hacts b (List.mem_cons_of_mem a hb2))
      refine ⟨w2, ?_⟩
      simp only [runWithoutConnect, hs]
      rw [hb]
      simpa using hw2

theorem step_keeps (a : Action) (w : World) (cl : Client) (hc : w.p.client = some cl)
    (hk : a.keepsConnection = true) :
    ∃ r w1, step a w = Except.ok (r, w1) ∧ w1.p = w.p := by
  cases a with
  | connect newClient subscribe =>
    refine ⟨none, w, ?_, rfl⟩
    simp only [step, connect_of_present newClient subscribe w cl hc]
  | disconnect => simp [Action.keepsConnection] at hk
  | closeAsync => simp [Action.keepsConnection] at hk
  | ack f res => exact ⟨(f.call res w).1, (f.call res w).2, rfl, (call_p f res w).2⟩
  | waitForClose timeout => exact ⟨none, w, rfl, rfl⟩
  | read recv =>
    cases hco : w.p.consumer with
    | none =>
      refine ⟨some GoError.ErrNotConnected, w, ?_, rfl⟩
      simp only [step, read_of_absent recv w hco]
    | some r =>
      cases recv with
      | ok pulMsg =>
        refine ⟨none, w.emit (Event.Receive r), ?_, rfl⟩
        simp only [step, ReadWithContext, hco]
      | error err =>
        simp only [Action.keepsConnection] at hk
        refine ⟨some GoError.ErrTimeout, w.emit (Event.Receive r), ?_, rfl⟩
        simp only [step, ReadWithContext, hco, hk, if_true]

theorem run_keeps (acts : List Action) (w : World) (cl : Client) (hc : w.p.client = some cl)
    (hk : ∀ a ∈ acts, a.keepsConnection = true) :
    ∃ w1, run acts w = Except.ok w1 ∧ w1.p = w.p := by
  induction acts generalizing w with
  | nil => exact ⟨w, rfl, rfl⟩
  | cons a rest ih =>
    obtain ⟨r, w1, hs, hp⟩ := step_keeps a w cl hc (hk a (List.mem_cons_self a rest))
    obtain ⟨w2, hr, hp2⟩ := ih w1 (by rw [hp]; exact hc)
      (fun b hb => hk b (List.mem_cons_of_mem a hb))
    refine ⟨w2, ?_, by rw [hp2, hp]⟩
    simp only [run, hs, hr]

/-! ## Metadata -/

theorem getEntry_setEntry_same (l : List (String × String)) (k v : String) :
    getEntry (setEntry l k v) k = some v := by
  induction l with
  | nil => simp [setEntry, getEntry]
  | cons kv rest ih =>
    obtain ⟨k0, v0⟩ := kv
    by_cases h : k0 = k
    · simp [setEntry, getEntry, h]
    · simp [setEntry, getEntry, h, ih]

theorem getEntry_setEntry_ne (l : List (String × String)) (k v n : String) (hn : n ≠ k) :
    getEntry (setEntry l k v) n = getEntry l n := by
  induction l with
  | nil =>
    have hk : ¬ k = n := fun h => hn h.symm
    simp [setEntry, getEntry, hk]
  | cons kv rest ih =>
    obtain ⟨k0, v0⟩ := kv
    by_cases h : k0 = k
    · have hk : ¬ k = n := fun h2 => hn h2.symm
      have hk0 : ¬ k0 = n := fun h2 => hn (h2.symm.trans h)
      simp [setEntry, getEntry, h, hk]
    · by_cases h2 : k0 = n
      · subst h2
        simp [setEntry, getEntry, h]
      · simp [setEntry, getEntry, h, h2, ih]

theorem getEntry_eq_none (l : List (String × String)) (n : String) :
    getEntry l n = none ↔ ∀ v, (n, v) ∉ l := by
  induction l with
  | nil => simp [getEntry]
  | cons kv rest ih =>
    obtain ⟨k0, v0⟩ := kv
    by_cases h : k0 = n
    · subst h
      simp only [getEntry, if_true]
      constructor
      · intro hc; cases hc
      · intro hall; exact absurd (List.mem_cons_self (k0, v0) rest) (hall v0)
    · have h2 : ¬ n = k0 := fun e => h e.symm
      simp [getEntry, h, h2, ih]

theorem setAll_data (props : List (String × String)) (q : Part) :
    (setAll props q).data = q.data := by
  induction props generalizing q with
  | nil => rfl
  | cons kv rest ih =>
    show (setAll rest _).data = q.data
    rw [ih]

theorem setAll_get_of_not_mem (props : List (String × String)) (q : Part) (n : String)
    (hn : n ∉ props.map Prod.fst) :
    (setAll props q).metadata.Get n = q.metadata.Get n := by
  induction props generalizing q with
  | nil => rfl
  | cons kv rest ih =>
    simp only [List.map_cons, List.mem_cons, not_or] at hn
    show (setAll rest _).metadata.Get n = q.metadata.Get n
    rw [ih _ hn.2]
    exact getEntry_setEntry_ne q.metadata.entries kv.1 kv.2 n hn.1

theorem setAll_get_of_mem (props : List (String × String)) (q : Part) (n v : String)
    (hnd : (props.map Prod.fst).Nodup) (hm : (n, v) ∈ props) :
    (setAll props q).metadata.Get n = some v := by
  induction props generalizing q with
  | nil => cases hm
  | cons kv rest ih =>
    simp only [List.map_cons, List.nodup_cons] at hnd
    show (setAll rest _).metadata.Get n = some v
    rcases List.mem_cons.mp hm with h | h
    · subst h
      rw [setAll_get_of_not_mem rest _ n hnd.1]
      exact getEntry_setEntry_same q.metadata.entries n v
    · exact ih _ hnd.2 h

theorem len_pos_iff (s : String) : len s > 0 ↔ s ≠ "" := by
  rw [gt_iff_lt, Nat.pos_iff_ne_zero, Ne, len_eq_zero]

theorem buildPart_of_key (m : PulsarMessage) (hk : m.Key ≠ "") :
    buildPart m = setAll m.Properties
      ⟨m.Payload, ⟨[("pulsar_key", m.Key), ("pulsar_topic", m.Topic)]⟩⟩ := by
  have h : len m.Key > 0 := (len_pos_iff m.Key).mpr hk
  unfold buildPart setAll
  simp only [h, if_true]
  rfl

theorem buildPart_of_no_key (m : PulsarMessage) (hk : m.Key = "") :
    buildPart m = setAll m.Properties ⟨m.Payload, ⟨[("pulsar_topic", m.Topic)]⟩⟩ := by
  have h : ¬ len m.Key > 0 := fun h => (len_pos_iff m.Key).mp h hk
  unfold buildPart setAll
  simp only [h, if_false]
  rfl

theorem read_of_message (pulMsg : PulsarMessage) (w : World) (co : Consumer)
    (hco : w.p.consumer = some co) :
    ReadWithContext (Except.ok pulMsg) w =
      Except.ok ((some ⟨[buildPart pulMsg]⟩, some ⟨pulMsg⟩, none), w.emit (Event.Receive co)) := by
  unfold ReadWithContext
  rw [hco]
  rfl

theorem connect_success_present (newClient : Except GoError Client)
    (subscribe : Except GoError Consumer) (w w1 : World)
    (h : ConnectWithContext newClient subscribe w = (none, w1)) :
    ∃ cl, w1.p.client = some cl := by
  unfold ConnectWithContext at h
  cases hc : w.p.client with
  | some cl =>
    rw [hc] at h
    simp only [Prod.mk.injEq, true_and] at h
    exact ⟨cl, by rw [← h]; exact hc⟩
  | none =>
    rw [hc] at h
    cases newClient with
    | error err => simp at h
    | ok client =>
      cases subscribe with
      | error err => simp at h
      | ok consumer =>
        simp only [Prod.mk.injEq, true_and] at h
        exact ⟨client, by rw [← h]; rfl⟩

/-! ## The claims -/

/-- C1: `newPulsar` returns a reader and no error exactly when url, topic and
subscription_name are all non-empty (the reader then stores the configuration and no
handle); when exactly one of the three is empty it fails with the error whose message
names that field: `field url must not be empty`, `field topic must not be empty` or
`field subscription_name must not be empty`. -/
theorem C1_newPulsar_checks_fields (conf : PulsarConfig) :
    ((∃ p, newPulsar conf = Except.ok p) ↔
      (conf.URL ≠ "" ∧ conf.Topic ≠ "" ∧ conf.SubscriptionName ≠ "")) ∧
    (conf.URL ≠ "" → conf.Topic ≠ "" → conf.SubscriptionName ≠ "" →
      newPulsar conf = Except.ok ⟨none, none, conf⟩) ∧
    (conf.URL = "" → conf.Topic ≠ "" → conf.SubscriptionName ≠ "" →
      newPulsar conf = Except.error (errors.New "field url must not be empty")) ∧
    (conf.URL ≠ "" → conf.Topic = "" → conf.SubscriptionName ≠ "" →
      newPulsar conf = Except.error (errors.New "field topic must not be empty")) ∧
    (conf.URL ≠ "" → conf.Topic ≠ "" → conf.SubscriptionName = "" →
      newPulsar conf = Except.error (errors.New "field subscription_name must not be empty")) := by
  rw [newPulsar_eq]
  refine ⟨?_, ?_, ?_, ?_, ?_⟩
  · constructor
    · rintro ⟨p, hp⟩
      split_ifs at hp with h1 h2 h3
      exact ⟨h1, h2, h3⟩
    · rintro ⟨h1, h2, h3⟩
      exact ⟨_, by rw [if_neg h1, if_neg h2, if_neg h3]⟩
  · intro h1 h2 h3
    rw [if_neg h1, if_neg h2, if_neg h3]
  · intro h1 _ _
    rw [if_pos h1]
  · intro h1 h2 _
    rw [if_neg h1, if_pos h2]
  · intro h1 h2 h3
    rw [if_neg h1, if_neg h2, if_pos h3]

/-- C1 at a configuration whose topic alone is empty. -/
theorem C1_newPulsar_checks_fields_witness :
    newPulsar ⟨"pulsar://localhost:6650", "", "s1"⟩ =
      Except.error (errors.New "field topic must not be empty") :=
  (C1_newPulsar_checks_fields ⟨"pulsar://localhost:6650", "", "s1"⟩).2.2.2.1
    (by decide) rfl (by decide)

/-- C8: on a reader without handles `ReadWithContext` returns `ErrNotConnected`, no
message and no acknowledgement closure, and the reader and the trace of calls are as
before: no receive was issued and no session or subscription was opened. -/
theorem C8_read_when_disconnected (w : World) (recv : Except GoError PulsarMessage)
    (hd : Disconnected w.p) :
    ReadWithContext recv w = Except.ok ((none, none, some GoError.ErrNotConnected), w) :=
  read_of_absent recv w hd.2

/-- C8 at a freshly constructed reader. -/
theorem C8_read_when_disconnected_witness :
    newPulsar sampleConf = Except.ok freshWorld.p ∧ Disconnected freshWorld.p ∧
    ReadWithContext (Except.ok sampleMsg) freshWorld =
      Except.ok ((none, none, some GoError.ErrNotConnected), freshWorld) :=
  ⟨rfl, by decide, C8_read_when_disconnected freshWorld (Except.ok sampleMsg) (by decide)⟩

/-- C3: on a reader holding both handles, a receive that fails with an error that is or
wraps `context.Canceled` or `context.DeadlineExceeded` makes `ReadWithContext` return
`ErrTimeout`, no message and no acknowledgement closure; the reader is unchanged and the
only call made is the receive, so neither handle is closed. -/
theorem C3_timeout_keeps_connection (w : World) (cl : Client) (co : Consumer) (err : GoError)
    (hc : w.p.client = some cl) (hco : w.p.consumer = some co)
    (ht : errors.Is err GoError.Canceled = true ∨ errors.Is err GoError.DeadlineExceeded = true) :
    ∃ w1, ReadWithContext (Except.error err) w =
        Except.ok ((none, none, some GoError.ErrTimeout), w1) ∧
      w1.p = w.p ∧ w1.p.client = some cl ∧ w1.p.consumer = some co ∧
      w1.trace = w.trace ++ [Event.Receive co] := by
  refine ⟨w.emit (Event.Receive co), ?_, rfl, hc, hco, rfl⟩
  have hb : (errors.Is err GoError.Canceled || errors.Is err GoError.DeadlineExceeded) = true := by
    rcases ht with h | h <;> simp [h]
  simp only [ReadWithContext, hco, hb, if_true]

/-- C3 at a deadline error wrapped once. -/
theorem C3_timeout_keeps_connection_witness :
    ∃ w1, ReadWithContext
        (Except.error (GoError.wrap "receive" GoError.DeadlineExceeded)) connectedWorld =
        Except.ok ((none, none, some GoError.ErrTimeout), w1) ∧
      w1.p = connectedWorld.p ∧ w1.p.client = some ⟨1⟩ ∧ w1.p.consumer = some ⟨1⟩ ∧
      w1.trace = connectedWorld.trace ++ [Event.Receive ⟨1⟩] :=
  C3_timeout_keeps_connection connectedWorld ⟨1⟩ ⟨1⟩
    (GoError.wrap "receive" GoError.DeadlineExceeded) rfl rfl (Or.inr (by decide))

/-- C2: on a reader holding both handles, a receive that fails with an error that
`errors.Is` matches with neither `context.Canceled` nor `context.DeadlineExceeded` makes
`ReadWithContext` return `ErrNotConnected`, no message and no acknowledgement closure;
afterwards both handles are cleared, the consumer having been closed and then the
session; and after any further calls among which no `ConnectWithContext` succeeded,
`ReadWithContext` again returns `ErrNotConnected` (such runs exist: every sequence
without a connect call that is granted both session and subscription runs through). -/
theorem C2_fatal_read_disconnects (w : World) (cl : Client) (co : Consumer) (err : GoError)
    (hc : w.p.client = some cl) (hco : w.p.consumer = some co)
    (h1 : errors.Is err GoError.Canceled = false)
    (h2 : errors.Is err GoError.DeadlineExceeded = false) :
    ∃ w1, ReadWithContext (Except.error err) w =
        Except.ok ((none, none, some GoError.ErrNotConnected), w1) ∧
      w1.p.client = none ∧ w1.p.consumer = none ∧ w1.p.conf = w.p.conf ∧
      w1.trace = w.trace ++ [Event.Receive co, Event.Errorf "Lost connection due to: %v\n" err,
        Event.ConsumerClose co, Event.ClientClose cl] ∧
      (∀ (acts : List Action) (w2 : World) (recv : Except GoError PulsarMessage),
        runWithoutConnect acts w1 = some w2 →
        ReadWithContext recv w2 =
          Except.ok ((none, none, some GoError.ErrNotConnected), w2)) ∧
      (∀ acts : List Action, (∀ a ∈ acts, a.canConnect = false) →
        ∃ w2, runWithoutConnect acts w1 = some w2) := by
  have hd := disconnect_of_present
    ((w.emit (Event.Receive co)).emit (Event.Errorf "Lost connection due to: %v\n" err))
    cl co hc hco
  refine ⟨⟨⟨none, none, w.p.conf⟩, w.trace ++ [Event.Receive co,
    Event.Errorf "Lost connection due to: %v\n" err, Event.ConsumerClose co,
    Event.ClientClose cl]⟩, ?_, rfl, rfl, rfl, rfl, ?_, ?_⟩
  · simp only [ReadWithContext, hco, h1, h2, Bool.or_self, Bool.false_eq_true, if_false, hd]
    simp [World.emit]
  · intro acts w2 recv hrun
    exact read_of_absent recv w2 (runWithoutConnect_disconnected acts _ w2 ⟨rfl, rfl⟩ hrun).2
  · intro acts hacts
    exact runWithoutConnect_total acts _ ⟨rfl, rfl⟩ hacts

/-- C2 at a broken pipe on a reader holding session 1 and consumer 1. -/
theorem C2_fatal_read_disconnects_witness :
    ∃ w1, ReadWithContext (Except.error brokenPipe) connectedWorld =
        Except.ok ((none, none, some GoError.ErrNotConnected), w1) ∧
      w1.p.client = none ∧ w1.p.consumer = none ∧ w1.p.conf = connectedWorld.p.conf ∧
      w1.trace = connectedWorld.trace ++
        [Event.Receive ⟨1⟩, Event.Errorf "Lost connection due to: %v\n" brokenPipe,
          Event.ConsumerClose ⟨1⟩, Event.ClientClose ⟨1⟩] ∧
      (∀ (acts : List Action) (w2 : World) (recv : Except GoError PulsarMessage),
        runWithoutConnect acts w1 = some w2 →
        ReadWithContext recv w2 =
          Except.ok ((none, none, some GoError.ErrNotConnected), w2)) ∧
      (∀ acts : List Action, (∀ a ∈ acts, a.canConnect = false) →
        ∃ w2, runWithoutConnect acts w1 = some w2) :=
  C2_fatal_read_disconnects connectedWorld ⟨1⟩ ⟨1⟩ brokenPipe rfl rfl (by decide) (by decide)

/-- C9: once `ConnectWithContext` has returned success, and after any further calls
that do not reach `disconnect`, another `ConnectWithContext` returns success whatever
the broker would answer, makes no call (the trace is unchanged: no session or
subscription is opened) and leaves the stored handles as they were. -/
theorem C9_connect_is_idempotent (w w1 : World) (newClient : Except GoError Client)
    (subscribe : Except GoError Consumer)
    (hconn : ConnectWithContext newClient subscribe w = (none, w1))
    (acts : List Action) (hk : ∀ a ∈ acts, a.keepsConnection = true)
    (newClient2 : Except GoError Client) (subscribe2 : Except GoError Consumer) :
    ∃ w2, run acts w1 = Except.ok w2 ∧ w2.p = w1.p ∧
      ConnectWithContext newClient2 subscribe2 w2 = (none, w2) := by
  obtain ⟨cl, hcl⟩ := connect_success_present newClient subscribe w w1 hconn
  obtain ⟨w2, hrun, hp⟩ := run_keeps acts w1 cl hcl hk
  exact ⟨w2, hrun, hp, connect_of_present newClient2 subscribe2 w2 cl (by rw [hp]; exact hcl)⟩

/-- C9 at a fresh reader that connects, reads a message and connects again. -/
theorem C9_connect_is_idempotent_witness :
    ConnectWithContext (Except.ok ⟨1⟩) (Except.ok ⟨1⟩) freshWorld =
      (none, (ConnectWithContext (Except.ok ⟨1⟩) (Except.ok ⟨1⟩) freshWorld).2) ∧
    ∃ w2, run [Action.read (Except.ok sampleMsg)]
        (ConnectWithContext (Except.ok ⟨1⟩) (Except.ok ⟨1⟩) freshWorld).2 = Except.ok w2 ∧
      w2.p = (ConnectWithContext (Except.ok ⟨1⟩) (Except.ok ⟨1⟩) freshWorld).2.p ∧
      ConnectWithContext (Except.ok ⟨2⟩) (Except.ok ⟨2⟩) w2 = (none, w2) :=
  ⟨rfl, C9_connect_is_idempotent freshWorld _ (Except.ok ⟨1⟩) (Except.ok ⟨1⟩) rfl
    [Action.read (Except.ok sampleMsg)] (by decide) (Except.ok ⟨2⟩) (Except.ok ⟨2⟩)⟩

/-- C10: in every world reachable from a freshly constructed reader by calls of
`ConnectWithContext` (whatever the broker answers), `disconnect`, `ReadWithContext`
(message, timeout or failure), acknowledgement closures, `CloseAsync` and
`WaitForClose`, the session handle and the consumer handle are both absent or both
present, and every further call returns (none panics); a connect that gets a session
but fails at subscribe returns the subscribe error, closes the session it opened and
stores neither handle. -/
theorem C10_handles_are_paired (w : World) (hr : Reachable w) :
    Paired w.p ∧
    (∀ a : Action, ∃ r w1, step a w = Except.ok (r, w1) ∧ Paired w1.p) ∧
    (∀ (cl : Client) (err : GoError), w.p.client = none →
      ConnectWithContext (Except.ok cl) (Except.error err) w =
        (some err, ⟨⟨none, none, w.p.conf⟩, w.trace ++ [Event.NewClient w.p.conf.URL,
          Event.Subscribe cl w.p.conf.Topic w.p.conf.SubscriptionName SubscriptionType.Shared,
          Event.ClientClose cl]⟩)) := by
  obtain ⟨conf, p, acts, hnew, hrun⟩ := hr
  have h0 : Paired (World.mk p []).p := Or.inl (newPulsar_disconnected conf p hnew)
  obtain ⟨w1, hrun1, hp⟩ := run_paired acts ⟨p, []⟩ h0
  rw [hrun] at hrun1
  cases hrun1
  refine ⟨hp, fun a => step_paired a w hp, ?_⟩
  intro cl err hc
  have hco : w.p.consumer = none := by
    rcases hp with h | h
    · exact h.2
    · rw [Connected, hc] at h; simp at h
  obtain ⟨⟨c1, c2, cf⟩, tr⟩ := w
  simp only at hc hco
  subst hc hco
  simp [ConnectWithContext, World.emit]

/-- C10 at the world reached by a connect that fails at subscribe, a connect that
succeeds, a read that fails and a close. -/
theorem C10_handles_are_paired_witness :
    Paired (World.mk ⟨none, none, sampleConf⟩
      [Event.NewClient "pulsar://localhost:6650",
        Event.Subscribe ⟨1⟩ "t1" "s1" SubscriptionType.Shared, Event.ClientClose ⟨1⟩,
        Event.NewClient "pulsar://localhost:6650",
        Event.Subscribe ⟨2⟩ "t1" "s1" SubscriptionType.Shared,
        Event.Infof "Receiving Pulsar messages to URL: %v\n" "pulsar://localhost:6650",
        Event.Receive ⟨1⟩, Event.Errorf "Lost connection due to: %v\n" brokenPipe,
        Event.ConsumerClose ⟨1⟩, Event.ClientClose ⟨2⟩]).p :=
  (C10_handles_are_paired _ ⟨sampleConf, ⟨none, none, sampleConf⟩,
    [Action.connect (Except.ok ⟨1⟩) (Except.error brokenPipe),
      Action.connect (Except.ok ⟨2⟩) (Except.ok ⟨1⟩),
      Action.read (Except.error brokenPipe), Action.closeAsync], rfl, rfl⟩).1

/-- C5: for the acknowledgement closure of a successful read, and for every response,
calling the closure on a reader without handles returns no error and leaves the reader
and the trace of calls as they were: neither `Ack` nor `Nack` is called on any
consumer. -/
theorem C5_ack_when_disconnected_is_silent (w0 w1 : World) (m : PulsarMessage)
    (msg : Message) (f : AsyncAckFn)
    (_hread : ReadWithContext (Except.ok m) w0 = Except.ok ((some msg, some f, none), w1))
    (w : World) (hd : Disconnected w.p) (res : Response) :
    f.call res w = (none, w) :=
  call_of_absent f res w hd.2

/-- C5 at a message read on consumer 1 and acknowledged on a reader without handles. -/
theorem C5_ack_when_disconnected_is_silent_witness :
    AsyncAckFn.call ⟨sampleMsg⟩ ⟨some brokenPipe⟩ freshWorld = (none, freshWorld) :=
  C5_ack_when_disconnected_is_silent connectedWorld (connectedWorld.emit (Event.Receive ⟨1⟩))
    sampleMsg ⟨[buildPart sampleMsg]⟩ ⟨sampleMsg⟩ rfl freshWorld (by decide) ⟨some brokenPipe⟩

/-- C4, as stated, fails: a message is read on consumer 1, the reader disconnects and
connects again (session 2, consumer 2), and the closure of the read is then called with
a success response. `Ack` is called on consumer 2; nothing is ever called on consumer 1,
the consumer that was live at read time. -/
theorem C4_ack_goes_to_reconnected_consumer :
    ReadWithContext (Except.ok sampleMsg) connectedWorld =
      Except.ok ((some ⟨[buildPart sampleMsg]⟩, some ⟨sampleMsg⟩, none),
        connectedWorld.emit (Event.Receive ⟨1⟩)) ∧
    connectedWorld.p.consumer = some ⟨1⟩ ∧
    run [Action.disconnect, Action.connect (Except.ok ⟨2⟩) (Except.ok ⟨2⟩),
        Action.ack ⟨sampleMsg⟩ ⟨none⟩] (connectedWorld.emit (Event.Receive ⟨1⟩)) =
      Except.ok ⟨⟨some ⟨2⟩, some ⟨2⟩, sampleConf⟩,
        [Event.Receive ⟨1⟩, Event.ConsumerClose ⟨1⟩, Event.ClientClose ⟨1⟩,
          Event.NewClient "pulsar://localhost:6650",
          Event.Subscribe ⟨2⟩ "t1" "s1" SubscriptionType.Shared,
          Event.Infof "Receiving Pulsar messages to URL: %v\n" "pulsar://localhost:6650",
          Event.Ack ⟨2⟩ sampleMsg]⟩ ∧
    Event.Ack ⟨1⟩ sampleMsg ∉
      [Event.Receive ⟨1⟩, Event.ConsumerClose ⟨1⟩, Event.ClientClose ⟨1⟩,
        Event.NewClient "pulsar://localhost:6650",
        Event.Subscribe ⟨2⟩ "t1" "s1" SubscriptionType.Shared,
        Event.Infof "Receiving Pulsar messages to URL: %v\n" "pulsar://localhost:6650",
        Event.Ack ⟨2⟩ sampleMsg] :=
  ⟨rfl, rfl, rfl, by decide⟩

/-- C4, amended: for every message returned by a successful read, calling its closure
while the reader stores a consumer returns no error and makes exactly one call, with the
message that was read, on the consumer stored at the time of the call: `Ack` for a
success response, `Nack` for a failure response. That consumer is the one that was live
at read time as long as no call since the read has reached `disconnect`. -/
theorem C4_ack_routes_to_stored_consumer (w0 : World) (cl0 : Client) (co0 : Consumer)
    (m : PulsarMessage) (hc0 : w0.p.client = some cl0) (hco0 : w0.p.consumer = some co0) :
    ∃ msg f w1, ReadWithContext (Except.ok m) w0 = Except.ok ((some msg, some f, none), w1) ∧
      (∀ (w : World) (co : Consumer), w.p.consumer = some co →
        f.call ⟨none⟩ w = (none, ⟨w.p, w.trace ++ [Event.Ack co m]⟩) ∧
        ∀ e : GoError, f.call ⟨some e⟩ w = (none, ⟨w.p, w.trace ++ [Event.Nack co m]⟩)) ∧
      (∀ acts : List Action, (∀ a ∈ acts, a.keepsConnection = true) →
        ∃ w2, run acts w1 = Except.ok w2 ∧ w2.p.consumer = some co0) := by
  refine ⟨⟨[buildPart m]⟩, ⟨m⟩, w0.emit (Event.Receive co0), read_of_message m w0 co0 hco0,
    ?_, ?_⟩
  · intro w co hco
    constructor
    · simp [AsyncAckFn.call, hco, World.emit]
    · intro e
      simp [AsyncAckFn.call, hco, World.emit]
  · intro acts hk
    obtain ⟨w2, hrun, hp⟩ := run_keeps acts (w0.emit (Event.Receive co0)) cl0 hc0 hk
    exact ⟨w2, hrun, by rw [hp]; exact hco0⟩

/-- C4, amended, at a message read on consumer 1. -/
theorem C4_ack_routes_to_stored_consumer_witness :
    ∃ msg f w1, ReadWithContext (Except.ok sampleMsg) connectedWorld =
        Except.ok ((some msg, some f, none), w1) ∧
      (∀ (w : World) (co : Consumer), w.p.consumer = some co →
        f.call ⟨none⟩ w = (none, ⟨w.p, w.trace ++ [Event.Ack co sampleMsg]⟩) ∧
        ∀ e : GoError,
          f.call ⟨some e⟩ w = (none, ⟨w.p, w.trace ++ [Event.Nack co sampleMsg]⟩)) ∧
      (∀ acts : List Action, (∀ a ∈ acts, a.keepsConnection = true) →
        ∃ w2, run acts w1 = Except.ok w2 ∧ w2.p.consumer = some ⟨1⟩) :=
  C4_ack_routes_to_stored_consumer connectedWorld ⟨1⟩ ⟨1⟩ sampleMsg rfl rfl

/-- The message with key `k1`, topic `t1` and property `a = 1` comes back with exactly
the entries `pulsar_key`, `pulsar_topic` and `a`; the names `key` and `topic` have no
entry. -/
theorem sampleMsg_metadata :
    buildPart sampleMsg =
      ⟨[104, 105], ⟨[("pulsar_key", "k1"), ("pulsar_topic", "t1"), ("a", "1")]⟩⟩ ∧
    (buildPart sampleMsg).metadata.Get "key" = none ∧
    (buildPart sampleMsg).metadata.Get "topic" = none :=
  ⟨rfl, rfl, rfl⟩

/-- C6, as stated, fails: for a message with key `k1`, topic `t1` and a property named
`pulsar_topic`, the returned metadata holds `t1` neither under `topic` (the name of the
spec), which has no entry, nor under `pulsar_topic` (the name of the code), which holds
the value of the property. -/
theorem C6_topic_entry_overwritten_by_property :
    ReadWithContext (Except.ok topicPropertyMsg) connectedWorld =
      Except.ok ((some ⟨[⟨[104, 105],
          ⟨[("pulsar_key", "k1"), ("pulsar_topic", "other")]⟩⟩]⟩,
        some ⟨topicPropertyMsg⟩, none), connectedWorld.emit (Event.Receive ⟨1⟩)) ∧
    topicPropertyMsg.Key ≠ "" ∧
    Metadata.Get ⟨[("pulsar_key", "k1"), ("pulsar_topic", "other")]⟩ "topic" ≠
      some topicPropertyMsg.Topic ∧
    Metadata.Get ⟨[("pulsar_key", "k1"), ("pulsar_topic", "other")]⟩ "pulsar_topic" ≠
      some topicPropertyMsg.Topic :=
  ⟨rfl, by decide, by decide, by decide⟩

/-- C6, amended: for every successfully received broker message with non-empty key k,
topic t, properties P (a Go map: pairwise distinct names) and payload b,
`ReadWithContext` returns a one-part message whose payload is exactly b and whose
metadata holds v under n for every property (n, v) of P, k under `pulsar_key` unless P
has a property of that name, t under `pulsar_topic` unless P has a property of that
name, and nothing under any other name. -/
theorem C6_message_metadata (w : World) (co : Consumer) (m : PulsarMessage)
    (hco : w.p.consumer = some co) (hk : m.Key ≠ "")
    (hnd : (m.Properties.map Prod.fst).Nodup) :
    ∃ part f w1, ReadWithContext (Except.ok m) w =
        Except.ok ((some ⟨[part]⟩, some f, none), w1) ∧
      part.data = m.Payload ∧
      (∀ n v, (n, v) ∈ m.Properties → part.metadata.Get n = some v) ∧
      ("pulsar_key" ∉ m.Properties.map Prod.fst →
        part.metadata.Get "pulsar_key" = some m.Key) ∧
      ("pulsar_topic" ∉ m.Properties.map Prod.fst →
        part.metadata.Get "pulsar_topic" = some m.Topic) ∧
      (∀ n, n ∉ m.Properties.map Prod.fst → n ≠ "pulsar_key" → n ≠ "pulsar_topic" →
        part.metadata.Get n = none) := by
  refine ⟨buildPart m, ⟨m⟩, w.emit (Event.Receive co), read_of_message m w co hco, ?_⟩
  rw [buildPart_of_key m hk]
  refine ⟨setAll_data _ _, ?_, ?_, ?_, ?_⟩
  · intro n v hm
    exact setAll_get_of_mem _ _ n v hnd hm
  · intro hn
    rw [setAll_get_of_not_mem _ _ _ hn]
    simp [Metadata.Get, getEntry]
  · intro hn
    rw [setAll_get_of_not_mem _ _ _ hn]
    simp [Metadata.Get, getEntry]
  · intro n hn h1 h2
    rw [setAll_get_of_not_mem _ _ _ hn]
    simp [Metadata.Get, getEntry, Ne.symm h1, Ne.symm h2]

/-- C6, amended, at key `k1`, topic `t1` and the one property `a = 1`. -/
theorem C6_message_metadata_witness :
    ∃ part f w1, ReadWithContext (Except.ok sampleMsg) connectedWorld =
        Except.ok ((some ⟨[part]⟩, some f, none), w1) ∧
      part.data = sampleMsg.Payload ∧
      (∀ n v, (n, v) ∈ sampleMsg.Properties → part.metadata.Get n = some v) ∧
      ("pulsar_key" ∉ sampleMsg.Properties.map Prod.fst →
        part.metadata.Get "pulsar_key" = some sampleMsg.Key) ∧
      ("pulsar_topic" ∉ sampleMsg.Properties.map Prod.fst →
        part.metadata.Get "pulsar_topic" = some sampleMsg.Topic) ∧
      (∀ n, n ∉ sampleMsg.Properties.map Prod.fst → n ≠ "pulsar_key" → n ≠ "pulsar_topic" →
        part.metadata.Get n = none) :=
  C6_message_metadata connectedWorld ⟨1⟩ sampleMsg rfl (by decide) (by decide)

/-- C7, as stated, fails: a message with an empty key that carries properties named
`pulsar_key` and `key` comes back with an entry under `pulsar_key` and an entry under
`key`, so under either name the metadata does have a key entry. -/
theorem C7_key_entry_from_property :
    ReadWithContext (Except.ok keyPropertyMsg) connectedWorld =
      Except.ok ((some ⟨[⟨[104, 105],
          ⟨[("pulsar_topic", "t1"), ("pulsar_key", "x"), ("key", "y")]⟩⟩]⟩,
        some ⟨keyPropertyMsg⟩, none), connectedWorld.emit (Event.Receive ⟨1⟩)) ∧
    keyPropertyMsg.Key = "" ∧
    Metadata.Get ⟨[("pulsar_topic", "t1"), ("pulsar_key", "x"), ("key", "y")]⟩ "pulsar_key" ≠
      none ∧
    Metadata.Get ⟨[("pulsar_topic", "t1"), ("pulsar_key", "x"), ("key", "y")]⟩ "key" ≠ none :=
  ⟨rfl, rfl, by decide, by decide⟩

/-- C7, amended: for every successfully received broker message whose key is empty and
which has no property named `pulsar_key`, the metadata of the returned message contains
no `pulsar_key` entry at all: the lookup finds nothing and no entry of that name is
stored, not even one with an empty value. -/
theorem C7_no_key_entry (w : World) (co : Consumer) (m : PulsarMessage)
    (hco : w.p.consumer = some co) (hk : m.Key = "")
    (hn : "pulsar_key" ∉ m.Properties.map Prod.fst) :
    ∃ part f w1, ReadWithContext (Except.ok m) w =
        Except.ok ((some ⟨[part]⟩, some f, none), w1) ∧
      part.metadata.Get "pulsar_key" = none ∧
      ∀ v, ("pulsar_key", v) ∉ part.metadata.entries := by
  refine ⟨buildPart m, ⟨m⟩, w.emit (Event.Receive co), read_of_message m w co hco, ?_⟩
  have hg : (buildPart m).metadata.Get "pulsar_key" = none := by
    rw [buildPart_of_no_key m hk, setAll_get_of_not_mem _ _ _ hn]
    simp [Metadata.Get, getEntry]
  exact ⟨hg, (getEntry_eq_none _ _).mp hg⟩

/-- C7, amended, at a message without key and without properties. -/
theorem C7_no_key_entry_witness :
    ∃ part f w1, ReadWithContext (Except.ok noKeyMsg) connectedWorld =
        Except.ok ((some ⟨[part]⟩, some f, none), w1) ∧
      part.metadata.Get "pulsar_key" = none ∧
      ∀ v, ("pulsar_key", v) ∉ part.metadata.entries :=
  C7_no_key_entry connectedWorld ⟨1⟩ noKeyMsg rfl rfl (by decide)

end PulsarInput
